import Mathlib

/-!
Verification development for the qm2 terminal quiz application
(src/qm2/core/engine.py, src/qm2/core/import_export.py,
src/qm2/core/scores.py, src/qm2/utils/files.py).

The Python code is shallowly embedded: question records (Python dicts with
optional keys) become structures of `Option`-valued fields, the interactive
answer handlers are abstracted by an oracle giving the outcome of each
handled question, and file contents are explicit values.
-/

namespace QM2

/-! ## Question record model (engine side)

A question as consumed by `engine.py`: a dict with optional keys
`type`, `question`, `correct`, `wrong_answers`, `pairs`.  A `pairs`
value is a dict with keys `left`, `right`, `answers`; the Python empty
dict `{}` is represented as `⟨[], [], []⟩` (indistinguishable from it
under every access the engine performs: `.get` of the three keys plus
truthiness). -/

structure MatchPairs where
  left : List String
  right : List String
  answers : List (String × String)
deriving DecidableEq, Repr

structure Question where
  type? : Option String
  question? : Option String
  correct? : Option String
  wrong_answers? : Option (List String)
  pairs? : Option MatchPairs
deriving DecidableEq, Repr

/-- `engine._is_valid_question`: requires the `type` and `question` keys;
a `match` question additionally needs truthy `pairs.left`, `pairs.right`,
`pairs.answers` (with `pairs` defaulting to the empty dict); every other
type needs a `correct` key. -/
def is_valid_question (q : Question) : Bool :=
  if q.type?.isNone || q.question?.isNone then
    false
  else if q.type? == some "match" then
    let pairs := q.pairs?.getD ⟨[], [], []⟩
    !pairs.left.isEmpty && !pairs.right.isEmpty && !pairs.answers.isEmpty
  else
    q.correct?.isSome

/-! ## Session engine (`engine.quiz_session`)

The four interactive handlers (`_handle_choice_question`,
`_handle_fillin_question`, `_handle_match_question`) all return one of the
outcomes below; the interaction itself is abstracted by an oracle mapping
the index of the handled question to its outcome. -/

inductive QuizResult where
  | correct
  | wrong
  | timeout
  | quit
deriving DecidableEq, Repr

structure SessionStats where
  correct_count : Nat
  wrong_count : Nat
  timeout_count : Nat
deriving DecidableEq, Repr

/-- The dispatch in `quiz_session`: `multiple`/`truefalse`/`fillin`/`match`
go to a handler; any other type falls to `continue` (the question is
skipped without touching any counter). -/
def handledQ (q : Question) : Bool :=
  let t := q.type?.getD ""
  t == "multiple" || t == "truefalse" || t == "fillin" || t == "match"

/-- The per-question loop of `quiz_session`: dispatch each question,
return `none` on a `quit` outcome (the Python `return`), otherwise bump
the counter selected by the outcome.  `i` numbers the handled questions,
so `oracle i` is the outcome of the `i`-th handler invocation. -/
def runQuestions (oracle : Nat → QuizResult) :
    List Question → Nat → SessionStats → Option SessionStats
  | [], _, s => some s
  | q :: qs, i, s =>
    if handledQ q then
      match oracle i with
      | .quit => none
      | .correct => runQuestions oracle qs (i + 1) { s with correct_count := s.correct_count + 1 }
      | .wrong => runQuestions oracle qs (i + 1) { s with wrong_count := s.wrong_count + 1 }
      | .timeout => runQuestions oracle qs (i + 1) { s with timeout_count := s.timeout_count + 1 }
    else
      runQuestions oracle qs i s

/-- `quiz_session` up to its statistics/save step: early return on an
empty input list or an empty valid list, otherwise run the shuffled valid
questions.  `shuffle` stands for `random.shuffle`; on natural completion
the result carries the final counters together with `len(questions)`
(the length of the shuffled valid list), the `total` used by the
statistics display and the saved record. -/
def quiz_session_run (questions : List Question)
    (shuffle : List Question → List Question)
    (oracle : Nat → QuizResult) : Option (SessionStats × Nat) :=
  if questions = [] then none
  else if questions.filter (fun q => is_valid_question q) = [] then none
  else
    (runQuestions oracle (shuffle (questions.filter (fun q => is_valid_question q))) 0
        ⟨0, 0, 0⟩).map
      (fun s => (s, (shuffle (questions.filter (fun q => is_valid_question q))).length))

structure ScoreRecord where
  correct : Nat
  wrong : Nat
  unanswered : Nat
  total : Nat
  duration_s : Nat
  timestamp : String
deriving DecidableEq, Repr

/-- `engine._save_quiz_result`: load the score list and append one record. -/
def save_quiz_result (scores : List ScoreRecord) (rec : ScoreRecord) :
    List ScoreRecord :=
  scores ++ [rec]

/-- Observable effect of `quiz_session` on the persisted score list:
a record is appended exactly on natural completion. -/
def quiz_session_scores (questions : List Question)
    (shuffle : List Question → List Question)
    (oracle : Nat → QuizResult)
    (duration : Nat) (timestamp : String)
    (scores : List ScoreRecord) : List ScoreRecord :=
  match quiz_session_run questions shuffle oracle with
  | none => scores
  | some (s, total) =>
      save_quiz_result scores
        ⟨s.correct_count, s.wrong_count, s.timeout_count, total, duration, timestamp⟩

/-! ## Engine lemmas -/

/-- Natural completion of the question loop adds exactly one count per
handled question. -/
theorem runQuestions_sum (oracle : Nat → QuizResult) :
    ∀ (l : List Question) (i : Nat) (s0 s' : SessionStats),
      runQuestions oracle l i s0 = some s' →
      s'.correct_count + s'.wrong_count + s'.timeout_count
        = s0.correct_count + s0.wrong_count + s0.timeout_count
          + l.countP (fun q => handledQ q) := by
  intro l
  induction l with
  | nil =>
    intro i s0 s' h
    simp only [runQuestions, Option.some.injEq] at h
    subst h
    simp
  | cons q qs ih =>
    intro i s0 s' h
    simp only [runQuestions] at h
    by_cases hq : handledQ q
    · rw [if_pos hq] at h
      have hcount : (q :: qs).countP (fun q => handledQ q)
          = qs.countP (fun q => handledQ q) + 1 := by
        simp [List.countP_cons, hq]
      cases horacle : oracle i with
      | quit => rw [horacle] at h; exact absurd h (by simp)
      | correct =>
        rw [horacle] at h
        have := ih (i + 1) _ s' h
        simp only at this
        omega
      | wrong =>
        rw [horacle] at h
        have := ih (i + 1) _ s' h
        simp only at this
        omega
      | timeout =>
        rw [horacle] at h
        have := ih (i + 1) _ s' h
        simp only at this
        omega
    · rw [if_neg hq] at h
      have := ih i s0 s' h
      have hcount : (q :: qs).countP (fun q => handledQ q)
          = qs.countP (fun q => handledQ q) := by
        simp [List.countP_cons, hq]
      omega

/-- If the oracle's first `quit` outcome falls inside the range of handled
questions, the question loop returns `none` (the session is abandoned). -/
theorem runQuestions_quit_none (oracle : Nat → QuizResult) :
    ∀ (l : List Question) (i : Nat) (s : SessionStats),
      (∃ n, i ≤ n ∧ n < i + l.countP (fun q => handledQ q) ∧
        oracle n = QuizResult.quit ∧
        ∀ m, i ≤ m → m < n → oracle m ≠ QuizResult.quit) →
      runQuestions oracle l i s = none := by
  intro l
  induction l with
  | nil =>
    intro i s ⟨n, hin, hlt, _, _⟩
    simp only [List.countP_nil, Nat.add_zero] at hlt
    omega
  | cons q qs ih =>
    intro i s ⟨n, hin, hlt, hq, hmin⟩
    simp only [runQuestions]
    by_cases hh : handledQ q
    · rw [if_pos hh]
      by_cases heq : i = n
      · subst heq
        rw [hq]
      · have hi : i < n := lt_of_le_of_ne hin heq
        have hne : oracle i ≠ QuizResult.quit := hmin i le_rfl hi
        have hcount : (q :: qs).countP (fun q => handledQ q)
            = qs.countP (fun q => handledQ q) + 1 := by
          simp [List.countP_cons, hh]
        have hrec : runQuestions oracle qs (i + 1) = fun s => none := by
          funext s'
          exact ih (i + 1) s' ⟨n, hi, by omega, hq, fun m hm1 hm2 => hmin m (by omega) hm2⟩
        cases horacle : oracle i with
        | quit => rfl
        | correct => exact congrFun hrec _
        | wrong => exact congrFun hrec _
        | timeout => exact congrFun hrec _
    · rw [if_neg hh]
      have hcount : (q :: qs).countP (fun q => handledQ q)
          = qs.countP (fun q => handledQ q) := by
        simp [List.countP_cons, hh]
      exact ih i s ⟨n, hin, by omega, hq, hmin⟩

/-! ## Claim theorems: engine -/

/-- C6: `_is_valid_question` returns `True` exactly when the question has
both a `type` and a `question` key and, for type `"match"`, non-empty
`pairs.left`, `pairs.right` and `pairs.answers`, while for every other
type it has a `correct` key; moreover
`is_valid({"type":"multiple","question":"Q"})` is `False` and
`is_valid({"type":"match","question":"Q","pairs":{"left":["A"],
"right":["1"],"answers":{"a":"1"}}})` is `True`. -/
theorem c6_validity_characterization :
    (∀ q : Question, is_valid_question q = true ↔
      (q.type?.isSome ∧ q.question?.isSome ∧
        ((q.type? = some "match" ∧
            (q.pairs?.getD ⟨[], [], []⟩).left ≠ [] ∧
            (q.pairs?.getD ⟨[], [], []⟩).right ≠ [] ∧
            (q.pairs?.getD ⟨[], [], []⟩).answers ≠ []) ∨
          (q.type? ≠ some "match" ∧ q.correct?.isSome))))
    ∧ is_valid_question ⟨some "multiple", some "Q", none, none, none⟩ = false
    ∧ is_valid_question
        ⟨some "match", some "Q", none, none, some ⟨["A"], ["1"], [("a", "1")]⟩⟩ = true := by
  refine ⟨fun q => ?_, by decide, by decide⟩
  obtain ⟨t, qn, c, wa, p⟩ := q
  cases t with
  | none => simp [is_valid_question]
  | some tv =>
    cases qn with
    | none => simp [is_valid_question]
    | some qv =>
      by_cases hm : tv = "match"
      · subst hm
        simp [is_valid_question, List.isEmpty_iff, and_assoc]
      · simp [is_valid_question, hm]

/-- C1 counterexample: a question of unknown type `"essay"` with a
`correct` key passes the validity filter (so `total = 1`) but is skipped
by the dispatch without touching any counter, so a completed session has
`correct + wrong + unanswered = 0 ≠ 1 = total`. -/
theorem c1_counterexample :
    quiz_session_run [⟨some "essay", some "Q", some "C", none, none⟩]
        id (fun _ => QuizResult.correct)
      = some (⟨0, 0, 0⟩, 1)
    ∧ ((0 : Nat) + 0 + 0 ≠ 1) := by
  constructor
  · rfl
  · decide

/-- C1 (amended): for a completed (non-quit) session,
`correct + wrong + unanswered` equals the number of valid questions whose
type is one of the four handled types (`multiple`, `truefalse`, `fillin`,
`match`); it equals `total` (the count of all valid questions) whenever
every valid question has a handled type. -/
theorem c1_session_invariant_amended (questions : List Question)
    (shuffle : List Question → List Question) (oracle : Nat → QuizResult)
    (s : SessionStats) (total : Nat)
    (hperm : (shuffle (questions.filter (fun q => is_valid_question q))).Perm
      (questions.filter (fun q => is_valid_question q)))
    (hrun : quiz_session_run questions shuffle oracle = some (s, total)) :
    s.correct_count + s.wrong_count + s.timeout_count
      = (questions.filter (fun q => is_valid_question q)).countP (fun q => handledQ q)
    ∧ total = (questions.filter (fun q => is_valid_question q)).length
    ∧ ((∀ q ∈ questions.filter (fun q => is_valid_question q), handledQ q) →
        s.correct_count + s.wrong_count + s.timeout_count = total) := by
  unfold quiz_session_run at hrun
  by_cases h0 : questions = []
  · rw [if_pos h0] at hrun; exact absurd hrun (by simp)
  · rw [if_neg h0] at hrun
    by_cases hv : questions.filter (fun q => is_valid_question q) = []
    · rw [if_pos hv] at hrun; exact absurd hrun (by simp)
    · rw [if_neg hv] at hrun
      simp only [Option.map_eq_some'] at hrun
      obtain ⟨s', hs', heq⟩ := hrun
      have h1 : s' = s := congrArg Prod.fst heq
      have h2 : (shuffle (questions.filter (fun q => is_valid_question q))).length = total :=
        congrArg Prod.snd heq
      subst h1
      subst h2
      have hsum := runQuestions_sum oracle _ 0 ⟨0, 0, 0⟩ s' hs'
      simp only [Nat.zero_add] at hsum
      have hcount := hperm.countP_eq (fun q => handledQ q)
      have hlen := hperm.length_eq
      refine ⟨by omega, hlen, fun hall => ?_⟩
      have : (questions.filter (fun q => is_valid_question q)).countP (fun q => handledQ q)
          = (questions.filter (fun q => is_valid_question q)).length :=
        List.countP_eq_length.mpr hall
      omega

/-- C1 amended, witness: a one-question `multiple` session answered
correctly satisfies the invariant with `total = 1`. -/
theorem c1_session_invariant_amended_witness :
    (1 : Nat) + 0 + 0
      = ([(⟨some "multiple", some "Q", some "C", some ["w"], none⟩ : Question)].filter
          (fun q => is_valid_question q)).countP (fun q => handledQ q)
    ∧ 1 = ([(⟨some "multiple", some "Q", some "C", some ["w"], none⟩ : Question)].filter
          (fun q => is_valid_question q)).length
    ∧ ((∀ q ∈ [(⟨some "multiple", some "Q", some "C", some ["w"], none⟩ : Question)].filter
          (fun q => is_valid_question q), handledQ q) →
        (1 : Nat) + 0 + 0 = 1) :=
  c1_session_invariant_amended
    [⟨some "multiple", some "Q", some "C", some ["w"], none⟩] id
    (fun _ => QuizResult.correct) ⟨1, 0, 0⟩ 1 (by decide) (by decide)

/-- C8: if the user's first `quit` outcome occurs at one of the handled
questions of the session, `quiz_session` returns immediately: no
statistics are produced (the run yields `none`) and the persisted score
list is returned unchanged, no matter how many questions were already
answered. -/
theorem c8_quit_leaves_scores_unchanged (questions : List Question)
    (shuffle : List Question → List Question) (oracle : Nat → QuizResult)
    (duration : Nat) (timestamp : String) (scores : List ScoreRecord)
    (hquit : ∃ n, oracle n = QuizResult.quit ∧
      (∀ m, m < n → oracle m ≠ QuizResult.quit) ∧
      n < (shuffle (questions.filter (fun q => is_valid_question q))).countP
            (fun q => handledQ q)) :
    quiz_session_run questions shuffle oracle = none ∧
    quiz_session_scores questions shuffle oracle duration timestamp scores = scores := by
  obtain ⟨n, hq, hmin, hn⟩ := hquit
  have hrun : quiz_session_run questions shuffle oracle = none := by
    unfold quiz_session_run
    by_cases h0 : questions = []
    · rw [if_pos h0]
    · rw [if_neg h0]
      by_cases hv : questions.filter (fun q => is_valid_question q) = []
      · rw [if_pos hv]
      · rw [if_neg hv]
        have := runQuestions_quit_none oracle
          (shuffle (questions.filter (fun q => is_valid_question q))) 0 ⟨0, 0, 0⟩
          ⟨n, Nat.zero_le n, by omega, hq, fun m _ hm2 => hmin m hm2⟩
        rw [this]
        rfl
  refine ⟨hrun, ?_⟩
  unfold quiz_session_scores
  rw [hrun]

/-- C8 witness: quitting on the first question of a concrete 3-question
session leaves a non-empty score list exactly as it was. -/
theorem c8_quit_leaves_scores_unchanged_witness :
    quiz_session_run
        [⟨some "multiple", some "A", some "x", some ["y"], none⟩,
         ⟨some "fillin", some "B", some "x", none, none⟩,
         ⟨some "truefalse", some "C", some "True", some ["False"], none⟩]
        id (fun _ => QuizResult.quit) = none
    ∧ quiz_session_scores
        [⟨some "multiple", some "A", some "x", some ["y"], none⟩,
         ⟨some "fillin", some "B", some "x", none, none⟩,
         ⟨some "truefalse", some "C", some "True", some ["False"], none⟩]
        id (fun _ => QuizResult.quit) 42 "2024-01-01 00:00:00"
        [⟨1, 2, 3, 6, 10, "t"⟩]
      = [⟨1, 2, 3, 6, 10, "t"⟩] :=
  c8_quit_leaves_scores_unchanged _ id (fun _ => QuizResult.quit) 42
    "2024-01-01 00:00:00" [⟨1, 2, 3, 6, 10, "t"⟩]
    ⟨0, rfl, fun m hm => absurd hm (Nat.not_lt_zero m), by decide⟩

/-! ## Python string primitives used by the converter

`import_export.py` moves between JSON records and CSV cells through
`str()` / `repr()` rendering, `ast.literal_eval`, `str.strip`,
`str.split` and `json.dumps`.  These are modelled at character level.
Python renders control characters other than `\n`, `\r`, `\t` with
`\xNN` escapes; the embedding covers strings without such characters
(they render/parse verbatim here). -/

/-- Python `s.split(sep)` on the character list of `s` (single-character
separator): splits at every occurrence, keeping empty pieces. -/
def splitOnChar (sep : Char) : List Char → List (List Char)
  | [] => [[]]
  | c :: cs =>
    if c = sep then [] :: splitOnChar sep cs
    else
      match splitOnChar sep cs with
      | [] => [[c]]
      | g :: gs => (c :: g) :: gs

/-- Python `s.split(sep)` producing strings. -/
def splitStr (sep : Char) (v : String) : List String :=
  (splitOnChar sep v.data).map (fun cs => ⟨cs⟩)

/-- `sep.join(pieces)` at character level. -/
def joinChar (sep : Char) : List (List Char) → List Char
  | [] => []
  | [g] => g
  | g :: gs => g ++ sep :: joinChar sep gs

/-- Python `str.strip()` whitespace class (ASCII part). -/
def isSpacePy (c : Char) : Bool :=
  c = ' ' || c = '\t' || c = '\n' || c = '\r' || c = '\x0b' || c = '\x0c'

/-- `not value or value.strip() == ""` for a string cell. -/
def isBlank (v : String) : Bool :=
  v.data.all isSpacePy

/-- Python `value.strip()`. -/
def pyStrip (v : String) : String :=
  ⟨((v.data.dropWhile isSpacePy).reverse.dropWhile isSpacePy).reverse⟩

/-- Python `value.strip('"')`. -/
def stripQuoteChars (v : String) : String :=
  ⟨((v.data.dropWhile (· = '"')).reverse.dropWhile (· = '"')).reverse⟩

/-- One character of Python `repr` of a string, for quote character `q`. -/
def escChar (q c : Char) : List Char :=
  if c = '\\' then ['\\', '\\']
  else if c = q then ['\\', q]
  else if c = '\n' then ['\\', 'n']
  else if c = '\r' then ['\\', 'r']
  else if c = '\t' then ['\\', 't']
  else [c]

/-- Python `repr` quote selection: a single quote unless the string has a
`'` and no `"`. -/
def chooseQuote (s : List Char) : Char :=
  if s.contains '\'' && !(s.contains '"') then '"' else '\''

def reprChars (s : List Char) : List Char :=
  chooseQuote s :: s.flatMap (escChar (chooseQuote s)) ++ [chooseQuote s]

/-- Python `repr` of a string. -/
def pyRepr (s : String) : String :=
  ⟨reprChars s.data⟩

def pyStrItemsChars : List (List Char) → List Char
  | [] => [']']
  | [s] => reprChars s ++ [']']
  | s :: rest => reprChars s ++ ',' :: ' ' :: pyStrItemsChars rest

/-- Python `str()` of a list of strings, as written by `csv.DictWriter`
for a non-string cell value. -/
def pyStrOfList (l : List String) : String :=
  ⟨'[' :: pyStrItemsChars (l.map String.data)⟩

def pyDictItemsChars : List (List Char × List Char) → List Char
  | [] => ['\x7d']
  | [kv] => reprChars kv.1 ++ ':' :: ' ' :: reprChars kv.2 ++ ['\x7d']
  | kv :: rest => reprChars kv.1 ++ ':' :: ' ' :: reprChars kv.2 ++ ',' :: ' ' :: pyDictItemsChars rest

/-- Python `str()` of a flat string-to-string dict. -/
def pyStrOfDict (m : List (String × String)) : String :=
  ⟨'\x7b' :: pyDictItemsChars (m.map (fun kv => (kv.1.data, kv.2.data)))⟩

/-- One character of `json.dumps` of a string. -/
def jsonEscChar (c : Char) : List Char :=
  if c = '\\' then ['\\', '\\']
  else if c = '"' then ['\\', '"']
  else if c = '\n' then ['\\', 'n']
  else if c = '\r' then ['\\', 'r']
  else if c = '\t' then ['\\', 't']
  else [c]

def jsonStrChars (s : List Char) : List Char :=
  '"' :: s.flatMap jsonEscChar ++ ['"']

def jsonStr (s : String) : String :=
  ⟨jsonStrChars s.data⟩

def jsonListChars : List (List Char) → List Char
  | [] => [']']
  | [s] => jsonStrChars s ++ [']']
  | s :: rest => jsonStrChars s ++ ',' :: ' ' :: jsonListChars rest

/-- `json.dumps` of a list of strings. -/
def jsonStrList (l : List String) : String :=
  ⟨'[' :: jsonListChars (l.map String.data)⟩

def jsonMapChars : List (List Char × List Char) → List Char
  | [] => ['\x7d']
  | [kv] => jsonStrChars kv.1 ++ ':' :: ' ' :: jsonStrChars kv.2 ++ ['\x7d']
  | kv :: rest => jsonStrChars kv.1 ++ ':' :: ' ' :: jsonStrChars kv.2 ++ ',' :: ' ' :: jsonMapChars rest

/-- `json.dumps` of a flat string-to-string dict. -/
def jsonStrMap (m : List (String × String)) : String :=
  ⟨'\x7b' :: jsonMapChars (m.map (fun kv => (kv.1.data, kv.2.data)))⟩

/-! ### A model of `ast.literal_eval` on string-list literals -/

def unescChar (c : Char) : Option Char :=
  if c = '\\' then some '\\'
  else if c = 'n' then some '\n'
  else if c = 'r' then some '\r'
  else if c = 't' then some '\t'
  else if c = '\'' then some '\''
  else if c = '"' then some '"'
  else none

/-- Consume the body of a quoted string literal up to the closing quote
`q`, undoing backslash escapes; returns the string and the rest. -/
def parseStrBody (q : Char) : List Char → Option (List Char × List Char)
  | [] => none
  | c :: cs =>
    if c = q then some ([], cs)
    else if c = '\\' then
      match cs with
      | [] => none
      | e :: cs' =>
        match unescChar e with
        | some u => (parseStrBody q cs').map (fun p => (u :: p.1, p.2))
        | none => none
    else (parseStrBody q cs).map (fun p => (c :: p.1, p.2))

/-- Parse one quoted Python string literal. -/
def parseStrLit (cs : List Char) : Option (String × List Char) :=
  match cs with
  | c :: rest =>
    if c = '\'' || c = '"' then
      (parseStrBody c rest).map (fun p => (⟨p.1⟩, p.2))
    else none
  | [] => none

def dropSpaces (cs : List Char) : List Char :=
  cs.dropWhile (· = ' ')

/-- Parse the items of a `['a', 'b']` literal after the opening bracket. -/
def parseItemsFuel : Nat → List Char → Option (List String)
  | 0, _ => none
  | fuel + 1, cs =>
    if cs = [']'] then some []
    else
      match parseStrLit cs with
      | none => none
      | some (s, rest) =>
        match rest with
        | ']' :: rest' => if rest' = [] then some [s] else none
        | ',' :: rest' => (parseItemsFuel fuel (dropSpaces rest')).map (fun l => s :: l)
        | _ => none

/-- `ast.literal_eval` restricted to list-of-string literals (the shape
`str()` produces for a `wrong_answers` list); other literal kinds are out
of the record schema and are treated as parse failures here. -/
def pyParseList (v : String) : Option (List String) :=
  match v.data with
  | '[' :: cs => parseItemsFuel (cs.length + 1) cs
  | _ => none

/-- The `except (ValueError, SyntaxError)` fallback for `wrong_answers`:
strip outer whitespace and `"` characters, split on commas, trim, and
drop blank items. -/
def wrongAnswersFallback (v : String) : List String :=
  (splitStr ',' (stripQuoteChars (pyStrip v))).filterMap
    (fun item => if isBlank item then none else some (pyStrip item))

/-- The `wrong_answers` branch of `csv_to_json` on a non-blank cell:
`ast.literal_eval`, wrapping a non-list result in a list, with the
comma-split fallback when evaluation fails. -/
def literalEvalWrongAnswers (v : String) : List String :=
  match pyParseList v with
  | some l => l
  | none =>
    match parseStrLit v.data with
    | some (s, rest) => if rest = [] then [s] else wrongAnswersFallback v
    | none => wrongAnswersFallback v

/-- The `left`/`right` branch: split on `|`, trim items, drop empties. -/
def splitStripPipe (v : String) : List String :=
  (splitStr '|' v).filterMap
    (fun item => if isBlank item then none else some (pyStrip item))

/-- Python dict assignment `d[k] = v`: replace an existing key in place,
else append (insertion order preserved). -/
def updMap (m : List (String × String)) (k v : String) : List (String × String) :=
  if m.any (fun kv => kv.1 = k) then
    m.map (fun kv => if kv.1 = k then (k, v) else kv)
  else m ++ [(k, v)]

/-- The `answers` branch: split on commas, then each item with a colon is
split at its first colon into a trimmed key/value pair. -/
def parseAnswersMap (v : String) : List (String × String) :=
  (splitStr ',' v).foldl
    (fun d pair =>
      match splitOnChar ':' pair.data with
      | [] => d
      | k :: rest =>
        if rest = [] then d
        else updMap d (pyStrip ⟨k⟩) (pyStrip ⟨joinChar ':' rest⟩))
    []

/-! ## Converter record model

A converter-side record is a dict over the schema keys
`type, question, correct, wrong_answers, left, right, answers, pairs`.
The `left`/`right`/`answers` slots can hold either a raw string (the
verbatim copy an empty CSV cell receives) or the parsed collection; the
`pairs` slot can hold a raw string (the JSON dump read back from CSV),
the Python empty dict, or a full `{left, right, answers}` dict.
Columns outside this schema are not represented. -/

inductive LrVal where
  | str (v : String)
  | items (v : List String)
deriving DecidableEq, Repr

inductive AnsVal where
  | str (v : String)
  | mp (v : List (String × String))
deriving DecidableEq, Repr

inductive PairsVal where
  | str (v : String)
  | emptyDict
  | full (left : LrVal) (right : LrVal) (answers : AnsVal)
deriving DecidableEq, Repr

structure RowRec where
  type? : Option String := none
  question? : Option String := none
  correct? : Option String := none
  wrong_answers? : Option (List String) := none
  left? : Option LrVal := none
  right? : Option LrVal := none
  answers? : Option AnsVal := none
  pairs? : Option PairsVal := none
deriving DecidableEq, Repr

/-! ## `csv_to_json` -/

/-- The final `else: processed_row[key] = value` branches: the cell value
is stored verbatim under its key. -/
def setVerbatim (acc : RowRec) (k v : String) : RowRec :=
  if k = "type" then { acc with type? := some v }
  else if k = "question" then { acc with question? := some v }
  else if k = "correct" then { acc with correct? := some v }
  else if k = "pairs" then { acc with pairs? := some (.str v) }
  else if k = "left" then { acc with left? := some (.str v) }
  else if k = "right" then { acc with right? := some (.str v) }
  else if k = "answers" then { acc with answers? := some (.str v) }
  else acc

/-- One `(key, value)` step of the normal-dialect row loop of
`csv_to_json` (cell values from `csv.DictReader` are strings, so the
`isinstance(value, list)` branches do not fire). -/
def processKV (acc : RowRec) (k v : String) : RowRec :=
  if isBlank v then
    if k = "wrong_answers" then { acc with wrong_answers? := some [] }
    else if k = "pairs" then { acc with pairs? := some .emptyDict }
    else setVerbatim acc k v
  else if k = "wrong_answers" then { acc with wrong_answers? := some (literalEvalWrongAnswers v) }
  else if k = "left" then { acc with left? := some (.items (splitStripPipe v)) }
  else if k = "right" then { acc with right? := some (.items (splitStripPipe v)) }
  else if k = "answers" then { acc with answers? := some (.mp (parseAnswersMap v)) }
  else setVerbatim acc k v

def lrTruthy : LrVal → Bool
  | .str v => v != ""
  | .items l => !l.isEmpty

def ansTruthy : AnsVal → Bool
  | .str v => v != ""
  | .mp m => !m.isEmpty

/-- The shared post-processing of `csv_to_json`: for `match` rows,
keep a truthy existing `pairs` dict or assemble one from the flat
`left`/`right`/`answers` fields (defaulting to empty collections), then
remove the flat keys; for non-match rows, set `pairs` to the empty dict
and remove the flat keys. -/
def postProcessRow (r : RowRec) : RowRec :=
  if r.type? = some "match" then
    { r with
      pairs? := some (match r.pairs? with
        | some (.full l rt a) =>
          if lrTruthy l || lrTruthy rt || ansTruthy a then
            PairsVal.full l rt a
          else
            PairsVal.full (r.left?.getD (.items [])) (r.right?.getD (.items []))
              (r.answers?.getD (.mp []))
        | _ =>
            PairsVal.full (r.left?.getD (.items [])) (r.right?.getD (.items []))
              (r.answers?.getD (.mp [])))
      left? := none, right? := none, answers? := none }
  else
    { r with pairs? := some .emptyDict, left? := none, right? := none, answers? := none }

/-- `csv.DictReader` row semantics: pair each header column with the
corresponding cell, padding short rows with the empty cell (`restval`). -/
def zipPad : List String → List String → List (String × String)
  | [], _ => []
  | k :: ks, [] => (k, "") :: zipPad ks []
  | k :: ks, c :: cs => (k, c) :: zipPad ks cs

/-- Lexicographic (code-point) comparison, Python's string `<=`. -/
def charListLe : List Char → List Char → Bool
  | [], _ => true
  | _ :: _, [] => false
  | a :: as, b :: bs =>
    if a < b then true else if b < a then false else charListLe as bs

def strLeB (a b : String) : Bool :=
  charListLe a.data b.data

def insertKeyed (kv : String × String) : List (String × String) → List (String × String)
  | [] => [kv]
  | kv' :: rest =>
    if strLeB kv.1 kv'.1 then kv :: kv' :: rest else kv' :: insertKeyed kv rest

/-- `sorted(row.keys())` with the associated values carried along. -/
def sortByKey : List (String × String) → List (String × String)
  | [] => []
  | kv :: rest => insertKeyed kv (sortByKey rest)

def lookupRow (row : List (String × String)) (k : String) : Option String :=
  (row.find? (fun kv => kv.1 = k)).map (fun kv => kv.2)

/-- Flattened dialect: `type`/`question`/`correct` are copied stripped
when present and non-blank, otherwise the key is left unset. -/
def flatField (row : List (String × String)) (k : String) : Option String :=
  match lookupRow row k with
  | some v => if isBlank v then none else some (pyStrip v)
  | none => none

/-- Flattened dialect: gather the stripped non-blank values of all
columns with the given name prefix, in the order of `row`. -/
def collectValues (row : List (String × String)) (pre : String) : List String :=
  row.foldl
    (fun acc kv =>
      if pre.data.isPrefixOf kv.1.data then
        (if isBlank kv.2 then acc else acc ++ [pyStrip kv.2])
      else acc)
    []

/-- Flattened dialect: build the `answers` mapping from the
`pairs/answers/<key>` columns (in sorted key order), keyed by the suffix
after the last `/`. -/
def collectAnswers (sortedRow : List (String × String)) : List (String × String) :=
  sortedRow.foldl
    (fun acc kv =>
      if "pairs/answers/".data.isPrefixOf kv.1.data then
        (if isBlank kv.2 then acc
         else updMap acc ((splitStr '/' kv.1).getLastD "") (pyStrip kv.2))
      else acc)
    []

/-- The flattened-dialect branch of the row loop of `csv_to_json`. -/
def processRowFlattened (row : List (String × String)) : RowRec :=
  { type? := flatField row "type"
    question? := flatField row "question"
    correct? := flatField row "correct"
    wrong_answers? := some (collectValues row "wrong_answers/")
    left? := none
    right? := none
    answers? := none
    pairs? := some
      (if !(collectValues (sortByKey row) "pairs/left/").isEmpty
          || !(collectValues (sortByKey row) "pairs/right/").isEmpty
          || !(collectAnswers (sortByKey row)).isEmpty then
        PairsVal.full (.items (collectValues (sortByKey row) "pairs/left/"))
          (.items (collectValues (sortByKey row) "pairs/right/"))
          (.mp (collectAnswers (sortByKey row)))
      else PairsVal.emptyDict) }

/-- `any('/' in field for field in fieldnames)`. -/
def isFlattenedHeader (header : List String) : Bool :=
  header.any (fun k => k.data.contains '/')

/-- `csv_to_json` on in-memory rows (the file I/O layer aside): dialect
detection on the header, per-row processing, shared post-processing. -/
def csv_to_json (header : List String) (rows : List (List String)) : List RowRec :=
  rows.map (fun cells =>
    postProcessRow
      (if isFlattenedHeader header then
        processRowFlattened (zipPad header cells)
      else
        (zipPad header cells).foldl (fun acc kv => processKV acc kv.1 kv.2) {}))

/-! ## `json_to_csv` -/

/-- `json.dumps` of the value in a record's `pairs` slot (done before the
rows reach the CSV writer). -/
def jsonOfPairs : PairsVal → String
  | .str v => jsonStr v
  | .emptyDict => "\x7b\x7d"
  | .full l r a =>
    "\x7b\"left\": " ++ jsonOfLr l ++ ", \"right\": " ++ jsonOfLr r
      ++ ", \"answers\": " ++ jsonOfAns a ++ "\x7d"
where
  jsonOfLr : LrVal → String
    | .str v => jsonStr v
    | .items l => jsonStrList l
  jsonOfAns : AnsVal → String
    | .str v => jsonStr v
    | .mp m => jsonStrMap m

def hasKey (r : RowRec) (k : String) : Bool :=
  if k = "type" then r.type?.isSome
  else if k = "question" then r.question?.isSome
  else if k = "correct" then r.correct?.isSome
  else if k = "wrong_answers" then r.wrong_answers?.isSome
  else if k = "left" then r.left?.isSome
  else if k = "right" then r.right?.isSome
  else if k = "answers" then r.answers?.isSome
  else if k = "pairs" then r.pairs?.isSome
  else false

/-- The schema keys in `sorted()` order; `sorted(all_fieldnames)` over a
set of schema keys is this list restricted to the present keys. -/
def csvHeaderOrder : List String :=
  ["answers", "correct", "left", "pairs", "question", "right", "type", "wrong_answers"]

/-- `fieldnames = sorted(set of all row keys)`. -/
def csvHeader (rows : List RowRec) : List String :=
  csvHeaderOrder.filter (fun k => rows.any (fun r => hasKey r k))

/-- One CSV cell as `csv.DictWriter` renders it: strings verbatim,
lists/dicts through `str()`, the (pre-dumped) `pairs` value through
`json.dumps`, and missing keys as the empty string (`restval`). -/
def renderCell (r : RowRec) (k : String) : String :=
  if k = "type" then r.type?.getD ""
  else if k = "question" then r.question?.getD ""
  else if k = "correct" then r.correct?.getD ""
  else if k = "wrong_answers" then
    match r.wrong_answers? with
    | some l => pyStrOfList l
    | none => ""
  else if k = "left" then
    match r.left? with
    | some (.str v) => v
    | some (.items l) => pyStrOfList l
    | none => ""
  else if k = "right" then
    match r.right? with
    | some (.str v) => v
    | some (.items l) => pyStrOfList l
    | none => ""
  else if k = "answers" then
    match r.answers? with
    | some (.str v) => v
    | some (.mp m) => pyStrOfDict m
    | none => ""
  else if k = "pairs" then
    match r.pairs? with
    | some pv => jsonOfPairs pv
    | none => ""
  else ""

/-- `json_to_csv` on in-memory records: empty input raises
`ValueError("JSON is empty")`; otherwise emit the sorted union of the
record keys as header and one fully-populated cell row per record. -/
def json_to_csv (rows : List RowRec) :
    Except String (List String × List (List String)) :=
  if rows = [] then .error "JSON is empty"
  else .ok (csvHeader rows, rows.map (fun r => (csvHeader rows).map (renderCell r)))

/-! ## Inversion of the literal-list parser on `str()` images -/

theorem chooseQuote_cases (s : List Char) :
    chooseQuote s = '\'' ∨ chooseQuote s = '"' := by
  unfold chooseQuote
  split
  · right; rfl
  · left; rfl

theorem unescChar_quote (q : Char) (hq : q = '\'' ∨ q = '"') :
    unescChar q = some q := by
  rcases hq with h | h <;> subst h <;> decide

theorem quote_ne_backslash (q : Char) (hq : q = '\'' ∨ q = '"') : ¬ q = '\\' := by
  rcases hq with h | h <;> subst h <;> decide

/-- Unfolding lemma for `parseStrBody` on a non-empty input. -/
theorem parseStrBody_cons (q c : Char) (cs : List Char) :
    parseStrBody q (c :: cs) =
      if c = q then some ([], cs)
      else if c = '\\' then
        (match cs with
        | [] => none
        | e :: cs' =>
          match unescChar e with
          | some u => (parseStrBody q cs').map (fun p => (u :: p.1, p.2))
          | none => none)
      else (parseStrBody q cs).map (fun p => (c :: p.1, p.2)) := by
  rw [parseStrBody.eq_def]

/-- The string-literal body parser undoes the `repr` escaper. -/
theorem parseStrBody_escape (q : Char) (hq : q = '\'' ∨ q = '"') :
    ∀ (s rest : List Char),
      parseStrBody q (s.flatMap (escChar q) ++ (q :: rest)) = some (s, rest) := by
  have hqb : ¬ q = '\\' := quote_ne_backslash q hq
  have hbq : ¬ ('\\' = q) := fun h => hqb h.symm
  have hqu : unescChar q = some q := unescChar_quote q hq
  intro s
  induction s with
  | nil =>
    intro rest
    simp [parseStrBody_cons]
  | cons c s ih =>
    intro rest
    rw [List.flatMap_cons, List.append_assoc]
    by_cases h1 : c = '\\'
    · subst h1
      simp [escChar, parseStrBody_cons, hbq, unescChar, ih]
    · by_cases h2 : c = q
      · subst h2
        simp [escChar, h1, parseStrBody_cons, hbq, hqu, ih]
      · by_cases h3 : c = '\n'
        · subst h3
          simp [escChar, h1, h2, parseStrBody_cons, hbq, unescChar, ih]
        · by_cases h4 : c = '\r'
          · subst h4
            simp [escChar, h1, h2, h3, parseStrBody_cons, hbq, unescChar, ih]
          · by_cases h5 : c = '\t'
            · subst h5
              simp [escChar, h1, h2, h3, h4, parseStrBody_cons, hbq, unescChar, ih]
            · simp [escChar, h1, h2, h3, h4, h5, parseStrBody_cons, ih]

theorem reprChars_cons_form (s : List Char) :
    reprChars s = chooseQuote s :: (s.flatMap (escChar (chooseQuote s)) ++ [chooseQuote s]) := by
  rfl

/-- The string-literal parser undoes Python `repr`. -/
theorem parseStrLit_repr (s rest : List Char) :
    parseStrLit (reprChars s ++ rest) = some (⟨s⟩, rest) := by
  rw [reprChars_cons_form]
  rw [List.cons_append, List.append_assoc, List.singleton_append]
  have hq := chooseQuote_cases s
  have hcond : (chooseQuote s = '\'' || chooseQuote s = '"') = true := by
    rcases hq with h | h <;> simp [h]
  simp only [parseStrLit, hcond, if_true]
  rw [parseStrBody_escape (chooseQuote s) hq s rest]
  rfl

theorem quote_ne_rbracket (s : List Char) : ¬ chooseQuote s = ']' := by
  rcases chooseQuote_cases s with h | h <;> rw [h] <;> decide

theorem quote_ne_space (s : List Char) : ¬ chooseQuote s = ' ' := by
  rcases chooseQuote_cases s with h | h <;> rw [h] <;> decide

/-- Unfolding lemma for `parseItemsFuel` with positive fuel. -/
theorem parseItemsFuel_succ (fuel : Nat) (cs : List Char) :
    parseItemsFuel (fuel + 1) cs =
      if cs = [']'] then some []
      else
        match parseStrLit cs with
        | none => none
        | some (s, rest) =>
          match rest with
          | ']' :: rest' => if rest' = [] then some [s] else none
          | ',' :: rest' => (parseItemsFuel fuel (dropSpaces rest')).map (fun l => s :: l)
          | _ => none := by
  rw [parseItemsFuel.eq_def]

/-- `pyStrItemsChars` never starts with a space (so the separator's
space-skipping stops right at the next item). -/
theorem dropSpaces_pyStrItemsChars (l : List (List Char)) :
    dropSpaces (pyStrItemsChars l) = pyStrItemsChars l := by
  match l with
  | [] => rfl
  | [s] =>
    show dropSpaces (reprChars s ++ [']']) = reprChars s ++ [']']
    rw [reprChars_cons_form, List.cons_append]
    unfold dropSpaces
    simp [List.dropWhile_cons, quote_ne_space s]
  | s :: s' :: rest =>
    show dropSpaces (reprChars s ++ ',' :: ' ' :: pyStrItemsChars (s' :: rest))
        = reprChars s ++ ',' :: ' ' :: pyStrItemsChars (s' :: rest)
    rw [reprChars_cons_form, List.cons_append]
    unfold dropSpaces
    simp [List.dropWhile_cons, quote_ne_space s]

theorem pyStrItemsChars_ne_single_rbracket (s : List Char) (tail : List Char) :
    ¬ (reprChars s ++ tail = [']']) := by
  rw [reprChars_cons_form, List.cons_append]
  intro h
  have h1 := List.head_eq_of_cons_eq h
  exact quote_ne_rbracket s h1

/-- The item parser reads back the items `str()` rendered, given enough
fuel. -/
theorem parseItemsFuel_pyStrItems :
    ∀ (l : List (List Char)) (fuel : Nat), l.length < fuel →
      parseItemsFuel fuel (pyStrItemsChars l)
        = some (l.map (fun s => (⟨s⟩ : String))) := by
  intro l
  induction l with
  | nil =>
    intro fuel hf
    match fuel, hf with
    | fuel + 1, _ => rfl
  | cons s l ih =>
    intro fuel hf
    match fuel, hf with
    | fuel + 1, hf =>
      cases l with
      | nil =>
        show parseItemsFuel (fuel + 1) (reprChars s ++ [']']) = some [⟨s⟩]
        rw [parseItemsFuel_succ]
        rw [if_neg (pyStrItemsChars_ne_single_rbracket s [']'])]
        rw [parseStrLit_repr s [']']]
        rfl
      | cons s' rest =>
        show parseItemsFuel (fuel + 1)
            (reprChars s ++ ',' :: ' ' :: pyStrItemsChars (s' :: rest)) = _
        rw [parseItemsFuel_succ]
        rw [if_neg (pyStrItemsChars_ne_single_rbracket s _)]
        rw [parseStrLit_repr s (',' :: ' ' :: pyStrItemsChars (s' :: rest))]
        have hd : dropSpaces (' ' :: pyStrItemsChars (s' :: rest))
            = pyStrItemsChars (s' :: rest) := by
          unfold dropSpaces
          rw [List.dropWhile_cons_of_pos (by decide)]
          exact dropSpaces_pyStrItemsChars (s' :: rest)
        show (parseItemsFuel fuel (dropSpaces (' ' :: pyStrItemsChars (s' :: rest)))).map
            (fun l => (⟨s⟩ : String) :: l) = _
        rw [hd, ih fuel (by simpa using Nat.lt_of_succ_lt_succ hf)]
        rfl

theorem pyStrItemsChars_length_ge (l : List (List Char)) :
    l.length ≤ (pyStrItemsChars l).length := by
  match l with
  | [] => simp [pyStrItemsChars]
  | [s] =>
    show 1 ≤ (reprChars s ++ [']']).length
    simp
  | s :: s' :: rest =>
    have ih := pyStrItemsChars_length_ge (s' :: rest)
    show (s' :: rest).length + 1
        ≤ (reprChars s ++ ',' :: ' ' :: pyStrItemsChars (s' :: rest)).length
    simp only [List.length_append, List.length_cons] at ih ⊢
    omega

/-- `ast.literal_eval` inverts `str()` on every list of strings. -/
theorem pyParseList_pyStrOfList (l : List String) :
    pyParseList (pyStrOfList l) = some l := by
  unfold pyParseList pyStrOfList
  show parseItemsFuel ((pyStrItemsChars (l.map String.data)).length + 1)
      (pyStrItemsChars (l.map String.data)) = some l
  rw [parseItemsFuel_pyStrItems (l.map String.data) _
    (Nat.lt_succ_of_le (by simpa using pyStrItemsChars_length_ge (l.map String.data)))]
  congr 1
  induction l with
  | nil => rfl
  | cons s l ih => simp only [List.map_cons, ih]

/-! ## Claim theorems: converter (direct computations) -/

/-- `json_to_csv` followed by `csv_to_json`, as the round-trip claims
exercise it. -/
def roundTrip (rows : List RowRec) : List RowRec :=
  match json_to_csv rows with
  | .ok (h, cells) => csv_to_json h cells
  | .error _ => []

/-- The `match` question of the match round-trip claim:
`pairs = {left:["A","B"], right:["1","2"], answers:{"a":"1","b":"2"}}`. -/
def matchRoundTripRecord : RowRec :=
  { type? := some "match"
    question? := some "Q"
    pairs? := some (.full (.items ["A", "B"]) (.items ["1", "2"])
      (.mp [("a", "1"), ("b", "2")])) }

/-- A plain `multiple` record with all four content keys. -/
def simpleMultipleRecord : RowRec :=
  { type? := some "multiple"
    question? := some "Q"
    correct? := some "A"
    wrong_answers? := some ["w"] }

/-- C4: `json_to_csv` errors with "JSON is empty" exactly on the empty
record list, and `csv_to_json` of a header-only CSV is the empty list. -/
theorem c4_empty_converter_inputs :
    json_to_csv ([] : List RowRec) = .error "JSON is empty"
    ∧ (∀ rows : List RowRec, rows ≠ [] → ∃ out, json_to_csv rows = .ok out)
    ∧ (∀ header : List String, csv_to_json header [] = []) := by
  refine ⟨rfl, fun rows h => ?_, fun header => rfl⟩
  refine ⟨(csvHeader rows, rows.map (fun r => (csvHeader rows).map (renderCell r))), ?_⟩
  unfold json_to_csv
  rw [if_neg h]

/-- C4 witness: a concrete one-record list converts without error. -/
theorem c4_empty_converter_inputs_witness :
    ∃ out, json_to_csv [simpleMultipleRecord] = .ok out :=
  c4_empty_converter_inputs.2.1 [simpleMultipleRecord] (by decide)

/-- C2 counterexample: round-tripping the claim's `match` question
(`pairs = {left:["A","B"], right:["1","2"], answers:{"a":"1","b":"2"}}`)
does NOT preserve `pairs`: the serialized `pairs` cell is read back as an
unparsed string, so the reassembled `pairs` is the empty structure. -/
theorem c2_counterexample :
    (roundTrip [matchRoundTripRecord]).map (fun r => r.pairs?)
      = [some (.full (.items []) (.items []) (.mp []))]
    ∧ ¬ ((roundTrip [matchRoundTripRecord]).map (fun r => r.pairs?)
      = [matchRoundTripRecord.pairs?]) := by
  constructor
  · rfl
  · decide

/-- C2 (amended): round-tripping the claim's `match` question preserves
`type` and `question` but replaces `pairs` by the empty structure
`{left: [], right: [], answers: {}}` — the redundant serialized `pairs`
column is never parsed back. -/
theorem c2_match_roundtrip_amended :
    roundTrip [matchRoundTripRecord]
      = [{ type? := some "match"
           question? := some "Q"
           pairs? := some (.full (.items []) (.items []) (.mp [])) }] := by
  rfl

/-- C5 counterexample: for a plain `multiple` record the emitted header is
the alphabetically sorted key set `correct, question, type, wrong_answers`
— not the claimed fixed order starting with `type`, and the absent
`left`/`right`/`answers` columns are not emitted at all. -/
theorem c5_counterexample :
    json_to_csv [simpleMultipleRecord]
      = .ok (["correct", "question", "type", "wrong_answers"],
             [["A", "Q", "multiple", "['w']"]])
    ∧ ¬ (["correct", "question", "type", "wrong_answers"]
          = ["type", "question", "correct", "wrong_answers", "left", "right", "answers"]) := by
  constructor
  · rfl
  · decide

/-- C7 counterexample: a normal-dialect `match` row keeps its flat
`correct` and `wrong_answers` keys (the claim says they are removed), and
a non-match row keeps a `pairs` key holding the empty dict (the claim
says the key is absent). -/
theorem c7_counterexample :
    (csv_to_json ["type", "question", "correct", "wrong_answers", "left", "right", "answers"]
        [["match", "M", "C", "['w']", "L1|L2", "R1|R2", "a:1"]]).map
        (fun r => (r.correct?, r.wrong_answers?))
      = [(some "C", some ["w"])]
    ∧ (csv_to_json ["type", "question", "correct", "wrong_answers"]
        [["multiple", "Q", "A", "['w']"]]).map (fun r => r.pairs?)
      = [some PairsVal.emptyDict] := by
  constructor
  · rfl
  · rfl

/-! ## Row-processing lemmas -/

theorem processKV_type (acc : RowRec) (v : String) :
    processKV acc "type" v = { acc with type? := some v } := by
  unfold processKV setVerbatim
  by_cases hb : isBlank v <;> simp [hb]

theorem processKV_question (acc : RowRec) (v : String) :
    processKV acc "question" v = { acc with question? := some v } := by
  unfold processKV setVerbatim
  by_cases hb : isBlank v <;> simp [hb]

theorem processKV_correct (acc : RowRec) (v : String) :
    processKV acc "correct" v = { acc with correct? := some v } := by
  unfold processKV setVerbatim
  by_cases hb : isBlank v <;> simp [hb]

theorem processKV_wrong_answers (acc : RowRec) (v : String) (hb : isBlank v = false) :
    processKV acc "wrong_answers" v
      = { acc with wrong_answers? := some (literalEvalWrongAnswers v) } := by
  unfold processKV
  simp [hb]

theorem setVerbatim_wa (acc : RowRec) (k v : String) :
    (setVerbatim acc k v).wrong_answers? = acc.wrong_answers? := by
  unfold setVerbatim
  split_ifs <;> rfl

/-- Every branch of `processKV` leaves `wrong_answers` either set by the
`wrong_answers` key itself or untouched. -/
theorem processKV_wa_other (acc : RowRec) (k v : String) (hk : ¬ k = "wrong_answers") :
    (processKV acc k v).wrong_answers? = acc.wrong_answers? := by
  unfold processKV
  split_ifs <;> first
    | rfl
    | exact setVerbatim_wa acc k v

theorem processKV_wa_isSome (acc : RowRec) (k v : String) :
    (processKV acc k v).wrong_answers?.isSome
      = (acc.wrong_answers?.isSome || k = "wrong_answers") := by
  by_cases hk : k = "wrong_answers"
  · subst hk
    by_cases hb : isBlank v
    · unfold processKV
      simp [hb]
    · rw [processKV_wrong_answers acc v (by simpa using hb)]
      simp
  · rw [processKV_wa_other acc k v hk]
    simp [hk]

/-- Over a whole row, `wrong_answers` ends up set iff some cell's key is
`wrong_answers` (or it was set before). -/
theorem foldl_processKV_wa (kvs : List (String × String)) :
    ∀ acc : RowRec,
      ((kvs.foldl (fun acc kv => processKV acc kv.1 kv.2) acc).wrong_answers?).isSome
        = (acc.wrong_answers?.isSome || kvs.any (fun kv => kv.1 = "wrong_answers")) := by
  induction kvs with
  | nil => intro acc; simp
  | cons kv kvs ih =>
    intro acc
    simp only [List.foldl_cons, List.any_cons]
    rw [ih, processKV_wa_isSome]
    by_cases h : kv.1 = "wrong_answers" <;> simp [h]

theorem zipPad_keys (ks : List String) :
    ∀ cs : List String, (zipPad ks cs).map Prod.fst = ks := by
  induction ks with
  | nil => intro cs; rfl
  | cons k ks ih =>
    intro cs
    cases cs with
    | nil => simp [zipPad, ih]
    | cons c cs => simp [zipPad, ih]

/-- `postProcessRow` removes the flat `left`/`right`/`answers` keys and
preserves the scalar fields. -/
theorem postProcessRow_shape (r : RowRec) :
    (postProcessRow r).left? = none ∧ (postProcessRow r).right? = none
    ∧ (postProcessRow r).answers? = none
    ∧ (postProcessRow r).type? = r.type?
    ∧ (postProcessRow r).question? = r.question?
    ∧ (postProcessRow r).correct? = r.correct?
    ∧ (postProcessRow r).wrong_answers? = r.wrong_answers? := by
  unfold postProcessRow
  split <;> simp

/-- For a `match` row the post-processing always installs a full
`{left, right, answers}` structure under `pairs`. -/
theorem postProcessRow_match (r : RowRec) (h : r.type? = some "match") :
    ∃ l rt a, (postProcessRow r).pairs? = some (.full l rt a) := by
  unfold postProcessRow
  rw [if_pos h]
  match hp : r.pairs? with
  | some (.full l rt a) =>
    by_cases ht : (lrTruthy l || lrTruthy rt || ansTruthy a) = true
    · exact ⟨l, rt, a, by simp [ht]⟩
    · refine ⟨r.left?.getD (.items []), r.right?.getD (.items []),
        r.answers?.getD (.mp []), ?_⟩
      simp only [Bool.not_eq_true] at ht
      simp [ht]
  | some (.str v) => exact ⟨_, _, _, rfl⟩
  | some .emptyDict => exact ⟨_, _, _, rfl⟩
  | none => exact ⟨_, _, _, rfl⟩

theorem postProcessRow_nonmatch (r : RowRec) (h : ¬ r.type? = some "match") :
    (postProcessRow r).pairs? = some .emptyDict := by
  unfold postProcessRow
  rw [if_neg h]

/-! ## C7 (amended) -/

/-- C7 (amended): every record produced by `csv_to_json` has no flat
`left`/`right`/`answers` keys; a `match` record always carries an
assembled `pairs` structure `{left, right, answers}` (but, contrary to
the original claim, keeps `correct` and `wrong_answers` as read); a
non-match record carries `pairs` as the (present) empty dict, and has a
`wrong_answers` key iff the dialect is flattened or the `wrong_answers`
column exists. -/
theorem c7_postprocessing_amended (header : List String) (rows : List (List String))
    (out : RowRec) (hmem : out ∈ csv_to_json header rows) :
    (out.left? = none ∧ out.right? = none ∧ out.answers? = none)
    ∧ (out.type? = some "match" → ∃ l rt a, out.pairs? = some (.full l rt a))
    ∧ (¬ out.type? = some "match" →
        out.pairs? = some .emptyDict
        ∧ (out.wrong_answers?.isSome = true ↔
            (isFlattenedHeader header = true ∨ "wrong_answers" ∈ header))) := by
  unfold csv_to_json at hmem
  obtain ⟨cells, _, rfl⟩ := List.mem_map.mp hmem
  set pr := (if isFlattenedHeader header = true then
      processRowFlattened (zipPad header cells)
    else
      (zipPad header cells).foldl (fun acc kv => processKV acc kv.1 kv.2) {}) with hpr
  obtain ⟨hl, hr, ha, ht, _, _, hw⟩ := postProcessRow_shape pr
  refine ⟨⟨hl, hr, ha⟩, fun hm => postProcessRow_match pr (ht ▸ hm), fun hm => ?_⟩
  refine ⟨postProcessRow_nonmatch pr (fun h => hm (ht ▸ h)), ?_⟩
  rw [hw]
  by_cases hf : isFlattenedHeader header = true
  · rw [hpr, if_pos hf]
    simp [processRowFlattened, hf]
  · rw [hpr, if_neg hf]
    rw [foldl_processKV_wa (zipPad header cells) {}]
    have hfst : ∀ l : List (String × String),
        l.any (fun kv => kv.1 = "wrong_answers")
          = (l.map Prod.fst).any (fun k => k = "wrong_answers") := by
      intro l
      induction l with
      | nil => rfl
      | cons kv l ih => simp [ih]
    have hany : (zipPad header cells).any (fun kv => kv.1 = "wrong_answers")
        = header.any (fun k => k = "wrong_answers") := by
      rw [hfst, zipPad_keys header cells]
    rw [hany]
    simp only [Bool.false_eq_true] at hf
    simp [hf, List.any_eq_true]

/-- C7 amended, witness: a concrete normal-dialect `multiple` row. -/
theorem c7_postprocessing_amended_witness :
    ((csv_to_json ["type", "question", "correct", "wrong_answers"]
        [["multiple", "Q", "A", "['w']"]]).headD {}).left? = none
    ∧ (((csv_to_json ["type", "question", "correct", "wrong_answers"]
        [["multiple", "Q", "A", "['w']"]]).headD {}).type? = some "match" →
        ∃ l rt a, ((csv_to_json ["type", "question", "correct", "wrong_answers"]
          [["multiple", "Q", "A", "['w']"]]).headD {}).pairs? = some (.full l rt a))
    ∧ ((csv_to_json ["type", "question", "correct", "wrong_answers"]
        [["multiple", "Q", "A", "['w']"]]).headD {}).pairs? = some .emptyDict := by
  have h := c7_postprocessing_amended ["type", "question", "correct", "wrong_answers"]
    [["multiple", "Q", "A", "['w']"]]
    ((csv_to_json ["type", "question", "correct", "wrong_answers"]
        [["multiple", "Q", "A", "['w']"]]).headD {}) (by decide)
  exact ⟨h.1.1, h.2.1, (h.2.2 (by decide)).1⟩

/-! ## C5 (amended) -/

theorem opt_none_of_isSome_false {α : Type} (o : Option α) (h : o.isSome = false) :
    o = none := by
  cases o with
  | none => rfl
  | some v => simp at h

/-- A key a record does not carry is rendered as the empty string
(`csv.DictWriter`'s `restval`). -/
theorem renderCell_missing (r : RowRec) (k : String) (h : hasKey r k = false) :
    renderCell r k = "" := by
  unfold hasKey at h
  unfold renderCell
  split_ifs at h ⊢ <;>
    first
      | rfl
      | (rw [opt_none_of_isSome_false _ h]; try rfl)

/-- C5 (amended): `json_to_csv` on a non-empty record list emits as
header the union of the record keys sorted alphabetically (so `correct`
comes first for plain records, not `type`, and columns no record carries
are not emitted); every output row has one cell per header column, and a
record's missing fields render as the empty string. -/
theorem c5_columns_amended (rows : List RowRec) (hne : rows ≠ []) :
    ∃ header cells, json_to_csv rows = .ok (header, cells)
    ∧ header.Pairwise (fun a b => strLeB a b = true)
    ∧ (∀ k, k ∈ header ↔ (k ∈ csvHeaderOrder ∧ ∃ r ∈ rows, hasKey r k = true))
    ∧ cells.length = rows.length
    ∧ (∀ row ∈ cells, row.length = header.length)
    ∧ (∀ r ∈ rows, ∀ k, hasKey r k = false → renderCell r k = "") := by
  refine ⟨csvHeader rows, rows.map (fun r => (csvHeader rows).map (renderCell r)),
    ?_, ?_, ?_, ?_, ?_, ?_⟩
  · unfold json_to_csv
    rw [if_neg hne]
  · have hsorted : csvHeaderOrder.Pairwise (fun a b => strLeB a b = true) := by decide
    exact List.Pairwise.sublist (List.filter_sublist _) hsorted
  · intro k
    unfold csvHeader
    rw [List.mem_filter]
    simp [List.any_eq_true]
  · simp
  · intro row hrow
    obtain ⟨r, _, rfl⟩ := List.mem_map.mp hrow
    simp
  · intro r _ k hk
    exact renderCell_missing r k hk

/-- C5 amended, witness: the concrete plain `multiple` record. -/
theorem c5_columns_amended_witness :
    ∃ header cells, json_to_csv [simpleMultipleRecord] = .ok (header, cells)
    ∧ header.Pairwise (fun a b => strLeB a b = true)
    ∧ (∀ k, k ∈ header ↔ (k ∈ csvHeaderOrder ∧ ∃ r ∈ [simpleMultipleRecord], hasKey r k = true))
    ∧ cells.length = [simpleMultipleRecord].length
    ∧ (∀ row ∈ cells, row.length = header.length)
    ∧ (∀ r ∈ [simpleMultipleRecord], ∀ k, hasKey r k = false → renderCell r k = "") :=
  c5_columns_amended [simpleMultipleRecord] (by decide)

/-! ## C3: round trip for simple non-match records -/

/-- The claim's "simple field" restriction: no comma in the value. -/
def CommaFree (s : String) : Prop := ',' ∉ s.data

instance commaFreeDecidable (s : String) : Decidable (CommaFree s) :=
  inferInstanceAs (Decidable (',' ∉ s.data))

/-- A `multiple`/`truefalse`/`fillin` record with all four content keys,
no match-specific keys, and comma-free field values (the claim's
hypothesis; the proof does not actually need comma-freeness). -/
def SimpleRec (r : RowRec) : Prop :=
  (r.type? = some "multiple" ∨ r.type? = some "truefalse" ∨ r.type? = some "fillin")
  ∧ (∃ v, r.question? = some v ∧ CommaFree v)
  ∧ (∃ v, r.correct? = some v ∧ CommaFree v)
  ∧ (∃ ws, r.wrong_answers? = some ws ∧ ∀ w ∈ ws, CommaFree w)
  ∧ r.left? = none ∧ r.right? = none ∧ r.answers? = none ∧ r.pairs? = none

theorem isBlank_pyStrOfList (l : List String) : isBlank (pyStrOfList l) = false := by
  simp [isBlank, pyStrOfList, isSpacePy]

theorem literalEvalWrongAnswers_pyStrOfList (l : List String) :
    literalEvalWrongAnswers (pyStrOfList l) = l := by
  unfold literalEvalWrongAnswers
  rw [pyParseList_pyStrOfList]

/-- Processing one simple record's CSV row re-creates its four content
fields and attaches the empty `pairs` dict. -/
theorem roundtrip_simple_record (r : RowRec) (t qv cv : String) (ws : List String)
    (ht : r.type? = some t) (hq : r.question? = some qv) (hc : r.correct? = some cv)
    (hw : r.wrong_answers? = some ws) (hnm : ¬ t = "match") :
    postProcessRow
      ((zipPad ["correct", "question", "type", "wrong_answers"]
        (["correct", "question", "type", "wrong_answers"].map (renderCell r))).foldl
        (fun acc kv => processKV acc kv.1 kv.2) {})
      = { type? := some t, question? := some qv, correct? := some cv,
          wrong_answers? := some ws, pairs? := some .emptyDict } := by
  have hcells : ["correct", "question", "type", "wrong_answers"].map (renderCell r)
      = [cv, qv, t, pyStrOfList ws] := by
    simp [renderCell, ht, hq, hc, hw]
  rw [hcells]
  show postProcessRow ([("correct", cv), ("question", qv), ("type", t),
      ("wrong_answers", pyStrOfList ws)].foldl (fun acc kv => processKV acc kv.1 kv.2) {}) = _
  simp only [List.foldl_cons, List.foldl_nil]
  rw [processKV_correct, processKV_question, processKV_type,
    processKV_wrong_answers _ _ (isBlank_pyStrOfList ws),
    literalEvalWrongAnswers_pyStrOfList]
  unfold postProcessRow
  rw [if_neg (by simp [hnm])]

/-- For a non-empty list of simple records the emitted header is exactly
the four content columns in sorted order. -/
theorem csvHeader_simple (rows : List RowRec) (hne : rows ≠ [])
    (hgood : ∀ r ∈ rows, SimpleRec r) :
    csvHeader rows = ["correct", "question", "type", "wrong_answers"] := by
  obtain ⟨r0, hr0⟩ := List.exists_mem_of_ne_nil rows hne
  obtain ⟨ht0, ⟨qv0, hq0, _⟩, ⟨cv0, hc0, _⟩, ⟨ws0, hw0, _⟩, _, _, _, _⟩ := hgood r0 hr0
  have htT : rows.any (fun r => hasKey r "type") = true := by
    rw [List.any_eq_true]
    refine ⟨r0, hr0, ?_⟩
    rcases ht0 with h | h | h <;> simp [hasKey, h]
  have htQ : rows.any (fun r => hasKey r "question") = true := by
    rw [List.any_eq_true]
    exact ⟨r0, hr0, by simp [hasKey, hq0]⟩
  have htC : rows.any (fun r => hasKey r "correct") = true := by
    rw [List.any_eq_true]
    exact ⟨r0, hr0, by simp [hasKey, hc0]⟩
  have htW : rows.any (fun r => hasKey r "wrong_answers") = true := by
    rw [List.any_eq_true]
    exact ⟨r0, hr0, by simp [hasKey, hw0]⟩
  have hfL : rows.any (fun r => hasKey r "left") = false := by
    simp only [List.any_eq_false]
    intro r hr
    obtain ⟨_, _, _, _, hl, _, _, _⟩ := hgood r hr
    simp [hasKey, hl]
  have hfR : rows.any (fun r => hasKey r "right") = false := by
    simp only [List.any_eq_false]
    intro r hr
    obtain ⟨_, _, _, _, _, hl, _, _⟩ := hgood r hr
    simp [hasKey, hl]
  have hfA : rows.any (fun r => hasKey r "answers") = false := by
    simp only [List.any_eq_false]
    intro r hr
    obtain ⟨_, _, _, _, _, _, hl, _⟩ := hgood r hr
    simp [hasKey, hl]
  have hfP : rows.any (fun r => hasKey r "pairs") = false := by
    simp only [List.any_eq_false]
    intro r hr
    obtain ⟨_, _, _, _, _, _, _, hl⟩ := hgood r hr
    simp [hasKey, hl]
  unfold csvHeader csvHeaderOrder
  simp [List.filter_cons, htT, htQ, htC, htW, hfL, hfR, hfA, hfP]

theorem forall₂_map_self {α β : Type} (P : α → β → Prop) (F : α → β) :
    ∀ l : List α, (∀ x ∈ l, P x (F x)) → List.Forall₂ P l (l.map F) := by
  intro l
  induction l with
  | nil => intro _; exact List.Forall₂.nil
  | cons x l ih =>
    intro h
    exact List.Forall₂.cons (h x (by simp)) (ih (fun y hy => h y (by simp [hy])))

/-- C3: for a non-empty question list of `multiple`/`truefalse`/`fillin`
records with comma-free string fields, `json_to_csv` then `csv_to_json`
returns records equal to the originals in `type`, `question` and
`correct`, and with the same `wrong_answers` elements up to order. -/
theorem c3_simple_roundtrip (rows : List RowRec) (hne : rows ≠ [])
    (hgood : ∀ r ∈ rows, SimpleRec r) :
    ∃ header cells, json_to_csv rows = .ok (header, cells)
    ∧ List.Forall₂
        (fun r out =>
          out.type? = r.type? ∧ out.question? = r.question? ∧ out.correct? = r.correct?
          ∧ ∃ ws ws', r.wrong_answers? = some ws ∧ out.wrong_answers? = some ws'
              ∧ ws'.Perm ws)
        rows (csv_to_json header cells) := by
  have hH := csvHeader_simple rows hne hgood
  refine ⟨csvHeader rows, rows.map (fun r => (csvHeader rows).map (renderCell r)), ?_, ?_⟩
  · unfold json_to_csv
    rw [if_neg hne]
  · rw [hH]
    unfold csv_to_json
    rw [List.map_map]
    have hflat : isFlattenedHeader ["correct", "question", "type", "wrong_answers"]
        = false := by decide
    apply forall₂_map_self
    intro r hr
    obtain ⟨htyp, ⟨qv, hq, _⟩, ⟨cv, hc, _⟩, ⟨ws, hw, _⟩, _, _, _, _⟩ := hgood r hr
    rcases htyp with ht | ht | ht <;>
      all_goals (
        simp only [Function.comp_apply, hflat, Bool.false_eq_true, if_false]
        rw [roundtrip_simple_record r _ qv cv ws ht hq hc hw (by decide)]
        exact ⟨by rw [ht], by rw [hq], by rw [hc], ws, ws, hw, rfl, List.Perm.refl ws⟩)

/-- C3 witness: a concrete two-record list (one `multiple`, one `fillin`)
satisfies the round-trip property. -/
theorem c3_simple_roundtrip_witness :
    ∃ header cells,
      json_to_csv [simpleMultipleRecord,
        { type? := some "fillin"
          question? := some "Capital of France?"
          correct? := some "Paris"
          wrong_answers? := some [] }] = .ok (header, cells)
      ∧ List.Forall₂
          (fun r out =>
            out.type? = r.type? ∧ out.question? = r.question? ∧ out.correct? = r.correct?
            ∧ ∃ ws ws', r.wrong_answers? = some ws ∧ out.wrong_answers? = some ws'
                ∧ ws'.Perm ws)
          [simpleMultipleRecord,
            { type? := some "fillin"
              question? := some "Capital of France?"
              correct? := some "Paris"
              wrong_answers? := some [] }]
          (csv_to_json header cells) :=
  c3_simple_roundtrip _ (by decide)
    (by
      intro r hr
      simp only [List.mem_cons, List.not_mem_nil, or_false] at hr
      rcases hr with rfl | rfl
      · exact ⟨Or.inl rfl, ⟨"Q", rfl, by decide⟩, ⟨"A", rfl, by decide⟩,
          ⟨["w"], rfl, by decide⟩, rfl, rfl, rfl, rfl⟩
      · exact ⟨Or.inr (Or.inr rfl), ⟨"Capital of France?", rfl, by decide⟩,
          ⟨"Paris", rfl, by decide⟩, ⟨[], rfl, by decide⟩, rfl, rfl, rfl, rfl⟩)

/-! ## Score reading (`scores.show_scores_paginated`)

A persisted score entry may use legacy (non-ASCII) field names; the
reader normalizes through nested `dict.get` fallback chains.  Fields are
modelled with ASCII names: `tacnihA`/`pogresnihA` stand for the accented
`tačnih`/`pogrešnih` keys. -/

structure RawScore where
  correct? : Option Nat := none
  tacnihA? : Option Nat := none
  tacnih? : Option Nat := none
  correct_count? : Option Nat := none
  wrong? : Option Nat := none
  pogresnihA? : Option Nat := none
  pogresnih? : Option Nat := none
  wrong_count? : Option Nat := none
  unanswered? : Option Nat := none
  neodgovorenih? : Option Nat := none
  unanswered_count? : Option Nat := none
  total? : Option Nat := none
  ukupno? : Option Nat := none
  total_questions? : Option Nat := none
  duration_s? : Option Nat := none
  trajanje_s? : Option Nat := none
  timestamp? : Option String := none
  vrijeme? : Option String := none
deriving DecidableEq, Repr

structure NormScore where
  correct : Nat
  wrong : Nat
  unanswered : Nat
  total : Nat
  duration_s : Nat
  timestamp : String
deriving DecidableEq, Repr

/-- One entry of the normalization loop of `show_scores_paginated`:
each field falls back through its legacy key chain; `total` falls back to
`correct + wrong + unanswered` (with the already-resolved values), the
other numeric fields to `0`, the timestamp to `"-"`. -/
def normalizeScore (s : RawScore) : NormScore :=
  let correct :=
    (((s.correct?.orElse fun _ => s.tacnihA?).orElse fun _ => s.tacnih?).orElse
      fun _ => s.correct_count?).getD 0
  let wrong :=
    (((s.wrong?.orElse fun _ => s.pogresnihA?).orElse fun _ => s.pogresnih?).orElse
      fun _ => s.wrong_count?).getD 0
  let unanswered :=
    ((s.unanswered?.orElse fun _ => s.neodgovorenih?).orElse
      fun _ => s.unanswered_count?).getD 0
  let total :=
    ((s.total?.orElse fun _ => s.ukupno?).orElse fun _ => s.total_questions?).getD
      (correct + wrong + unanswered)
  let duration_s := (s.duration_s?.orElse fun _ => s.trajanje_s?).getD 0
  let timestamp := (s.timestamp?.orElse fun _ => s.vrijeme?).getD "-"
  ⟨correct, wrong, unanswered, total, duration_s, timestamp⟩

/-- The normalization pass over the whole score list. -/
def normalizeScores (scores : List RawScore) : List NormScore :=
  scores.map normalizeScore

/-! ## File loading (`utils/files.py`) -/

inductive JsonValue where
  | null
  | bool (b : Bool)
  | num (n : Int)
  | str (s : String)
  | arr (items : List JsonValue)
  | obj (fields : List (String × JsonValue))

inductive PyError where
  | decodeError
  | unicodeError
  | osError
deriving DecidableEq, Repr

/-- The state of the file a loader is pointed at. -/
inductive FileRead where
  | missing
  | unreadable
  | badEncoding
  | invalidJson
  | content (v : JsonValue)

/-- `json.load` on the opened file: the fallible part of the `try` body. -/
def jsonLoad : FileRead → Except PyError JsonValue
  | .missing => .error .osError
  | .unreadable => .error .osError
  | .badEncoding => .error .unicodeError
  | .invalidJson => .error .decodeError
  | .content v => .ok v

def os_path_exists : FileRead → Bool
  | .missing => false
  | _ => true

/-- `load_json_result`: missing file short-circuits; the `try` body's
errors are each caught and mapped to `([], message)`; a top-level value
that is neither a list nor a dict is normalized to `[]`. -/
def load_json_result (f : FileRead) : JsonValue × Option String :=
  if os_path_exists f = false then (.arr [], some "File not found")
  else
    match jsonLoad f with
    | .ok v =>
      match v with
      | .arr l => (.arr l, none)
      | .obj o => (.obj o, none)
      | _ => (.arr [], none)
    | .error .decodeError => (.arr [], some "Invalid JSON")
    | .error .unicodeError => (.arr [], some "Encoding error")
    | .error .osError => (.arr [], some "Error reading")

/-- `load_json`: the data component only. -/
def load_json (f : FileRead) : JsonValue :=
  (load_json_result f).1

/-- `engine._save_quiz_result`'s effect on the score file:
`load_json`, `scores.append(record)`, write back.  `none` models the
`AttributeError` that `append` would raise on a non-list (dict) value —
a case the claim does not cover. -/
def save_quiz_result_on_file (f : FileRead) (rec : JsonValue) :
    Option (List JsonValue) :=
  match load_json f with
  | .arr l => some (l ++ [rec])
  | _ => none

/-! ## Claim theorems: scores and files -/

/-- C9 counterexample: a record carrying only `correct = 3` (every
`total` key absent) normalizes to `total = 3`, not the claimed default
`0` — the reader falls back to `correct + wrong + unanswered`. -/
theorem c9_counterexample :
    (normalizeScore { correct? := some 3 }).total = 3
    ∧ ¬ ((normalizeScore { correct? := some 3 }).total = 0) := by
  constructor
  · rfl
  · decide

/-- C9 (amended): the reader resolves each field through its legacy
fallback-key chain (primary key first, then the legacy keys); when every
key of a chain is absent, `correct`, `wrong`, `unanswered` and
`duration_s` default to `0`, `timestamp` defaults to `"-"`, and `total`
defaults to the sum `correct + wrong + unanswered` of the
already-normalized counters. -/
theorem c9_score_normalization_amended (s : RawScore) :
    (s.correct? = none → s.tacnihA? = none → s.tacnih? = none →
      s.correct_count? = none → (normalizeScore s).correct = 0)
    ∧ (s.wrong? = none → s.pogresnihA? = none → s.pogresnih? = none →
        s.wrong_count? = none → (normalizeScore s).wrong = 0)
    ∧ (s.unanswered? = none → s.neodgovorenih? = none →
        s.unanswered_count? = none → (normalizeScore s).unanswered = 0)
    ∧ (s.duration_s? = none → s.trajanje_s? = none → (normalizeScore s).duration_s = 0)
    ∧ (s.total? = none → s.ukupno? = none → s.total_questions? = none →
        (normalizeScore s).total
          = (normalizeScore s).correct + (normalizeScore s).wrong
            + (normalizeScore s).unanswered)
    ∧ (s.timestamp? = none → s.vrijeme? = none → (normalizeScore s).timestamp = "-")
    ∧ (∀ v, s.correct? = some v → (normalizeScore s).correct = v)
    ∧ (∀ v, s.correct? = none → s.tacnihA? = some v → (normalizeScore s).correct = v)
    ∧ (∀ v, s.timestamp? = none → s.vrijeme? = some v → (normalizeScore s).timestamp = v) := by
  unfold normalizeScore
  refine ⟨?_, ?_, ?_, ?_, ?_, ?_, ?_, ?_, ?_⟩ <;>
    (intros; simp_all)

/-- C9 amended, witness: the all-absent record and two concrete legacy
records. -/
theorem c9_score_normalization_amended_witness :
    (normalizeScore {}).correct = 0
    ∧ (normalizeScore {}).total
        = (normalizeScore {}).correct + (normalizeScore {}).wrong
          + (normalizeScore {}).unanswered
    ∧ (normalizeScore {}).timestamp = "-"
    ∧ (normalizeScore { tacnihA? := some 7 }).correct = 7 :=
  ⟨(c9_score_normalization_amended {}).1 rfl rfl rfl rfl,
   (c9_score_normalization_amended {}).2.2.2.2.1 rfl rfl rfl,
   (c9_score_normalization_amended {}).2.2.2.2.2.1 rfl rfl,
   (c9_score_normalization_amended { tacnihA? := some 7 }).2.2.2.2.2.2.2.1 7 rfl rfl⟩

/-- C10: `load_json` never raises — it always yields a list or a dict;
for a missing, unreadable, or wrongly-encoded file, invalid JSON, and a
top-level value that is neither list nor object, it yields the empty
list; consequently `_save_quiz_result` on a missing or corrupt score
file writes a list holding only the new record. -/
theorem c10_load_json_never_raises (rec : JsonValue) :
    (∀ f : FileRead, (∃ l, load_json f = .arr l) ∨ (∃ o, load_json f = .obj o))
    ∧ load_json .missing = .arr []
    ∧ load_json .invalidJson = .arr []
    ∧ load_json .unreadable = .arr []
    ∧ load_json .badEncoding = .arr []
    ∧ load_json (.content .null) = .arr []
    ∧ (∀ b, load_json (.content (.bool b)) = .arr [])
    ∧ (∀ n, load_json (.content (.num n)) = .arr [])
    ∧ (∀ s, load_json (.content (.str s)) = .arr [])
    ∧ save_quiz_result_on_file .missing rec = some [rec]
    ∧ save_quiz_result_on_file .invalidJson rec = some [rec]
    ∧ save_quiz_result_on_file .unreadable rec = some [rec] := by
  refine ⟨?_, rfl, rfl, rfl, rfl, rfl, fun b => rfl, fun n => rfl, fun s => rfl,
    rfl, rfl, rfl⟩
  intro f
  match f with
  | .missing => exact Or.inl ⟨[], rfl⟩
  | .unreadable => exact Or.inl ⟨[], rfl⟩
  | .badEncoding => exact Or.inl ⟨[], rfl⟩
  | .invalidJson => exact Or.inl ⟨[], rfl⟩
  | .content .null => exact Or.inl ⟨[], rfl⟩
  | .content (.bool b) => exact Or.inl ⟨[], rfl⟩
  | .content (.num n) => exact Or.inl ⟨[], rfl⟩
  | .content (.str s) => exact Or.inl ⟨[], rfl⟩
  | .content (.arr l) => exact Or.inl ⟨l, rfl⟩
  | .content (.obj o) => exact Or.inr ⟨o, rfl⟩

end QM2
